import Mathlib

/-!
Verification of the variadic parameter-list mechanism of YDBGo.

The consuming routine `YdB_vArIaDiC_pLiSt_TeSt` (src/YdB_vArIaDiC_pLiSt_TeSt.c)
is embedded shallowly:

* A `ydb_buffer_t` descriptor is a record of the bytes of the region its
  `buf_addr` pointer designates (the region's actual content, one `Nat` per
  byte), the declared allocated length `len_alloc`, and the used length
  `len_used`.  The numeric address itself is not modelled; reads through the
  pointer are reads of the `buf_addr` byte list, and a read of more bytes than
  the region holds is undefined behaviour.
* Descriptors live in a memory `Mem` (a list of descriptors); a variadic slot
  holding a `ydb_buffer_t *` carries an index into that memory, and an
  out-of-range index models a poisoned/unallocated pointer whose dereference
  is undefined behaviour.
* Undefined behaviour (dereferencing a bad pointer, reading past a region,
  pulling a `va_arg` of the wrong type or past the end of the list) is the
  `none` outcome; a normal return is `some (status, printed diagnostics,
  final memory)`.  The routine takes and returns the memory explicitly so
  that its (absence of) writes is visible in the model.
* `printf` output is modelled by the `Msg` type: one constructor per distinct
  diagnostic of the C file, carrying the same data the format arguments carry
  (numeric addresses and blank separator lines of the debug block are not
  modelled).  The debug block is guarded by `debugFlag`, fixed to 0 in the
  source.
-/

/-- The `ydb_buffer_t` descriptor (libyottadb.h): `buf_addr` stands for the
content of the byte region the C pointer designates, `len_alloc` and
`len_used` are its allocated and used lengths. -/
structure ydb_buffer_t where
  buf_addr : List Nat
  len_alloc : Nat
  len_used : Nat
deriving DecidableEq, Repr

/-- Memory holding the buffer descriptors a variadic call can point at. -/
abbrev Mem := List ydb_buffer_t

/-- One slot of a variadic argument list, as the consuming routine pulls it:
a plain `int`, or a `ydb_buffer_t *` given as an index into `Mem`
(an out-of-range index is a poisoned pointer). -/
inductive Slot where
  | intArg : Int → Slot
  | bufPtr : Nat → Slot
deriving DecidableEq, Repr

/-- One diagnostic line, mirroring the `printf` calls of the C file; each
failure constructor carries the expected and the received value exactly as
the corresponding format string does. -/
inductive Msg where
  | argCountWrong : Int → Int → Msg
  | firstParamWrong : Int → Int → Msg
  | buffer1Wrong : List Nat → List Nat → Msg
  | buffer2Wrong : List Nat → List Nat → Msg
  | debugBuf : Nat → Nat → Msg
  | debugValue : List Nat → Msg
deriving DecidableEq, Repr

/-- `#define expectedargs 3` -/
def expectedargs : Int := 3

/-- `#define expectedval 42` -/
def expectedval : Int := 42

/-- Bytes of a NUL-free C string literal. -/
def strBytes (s : String) : List Nat := s.toList.map Char.toNat

/-- `#define expectedbuf1 "Buffer one"`; its `strlen` is `expectedbuf1.length`. -/
def expectedbuf1 : List Nat := strBytes "Buffer one"

/-- `#define expectedbuf2 "Buffer two"` -/
def expectedbuf2 : List Nat := strBytes "Buffer two"

/-- `#define debugFlag 0` -/
def debugFlag : Bool := false

/-- Output produced only when `debugFlag` is set (the `if (debugFlag) printf`
blocks of the C file). -/
def dbg (ms : List Msg) : List Msg := if debugFlag then ms else []

/-- The debug block printing a descriptor's `len_alloc` and `len_used`
(lines 50-54 and 66-71; the printed addresses are not modelled). -/
def debugBufMsgs (b : ydb_buffer_t) : List Msg :=
  [Msg.debugBuf b.len_alloc b.len_used]

/-- The debug line printing a descriptor's value with `%.*s` (lines 62, 79):
the first `len_used` bytes of the region. -/
def debugValueMsg (b : ydb_buffer_t) : List Msg :=
  [Msg.debugValue (b.buf_addr.take b.len_used)]

/-- Read `n` bytes from a region; reading past the region's end is undefined
behaviour (`none`). -/
def readBytes (region : List Nat) (n : Nat) : Option (List Nat) :=
  if n ≤ region.length then some (region.take n) else none

/-- Dereference a `ydb_buffer_t *` slot value. -/
def derefBuf (mem : Mem) (i : Nat) : Option ydb_buffer_t := mem.get? i

/-- The buffer validation of lines 56-60 and 73-77:
`(lu != strlen(expected)) || (0 != memcmp(expected, ba, lu))`, with C's
short-circuit `||`, so `memcmp` runs only when the lengths match.  On either
mismatch the FAIL `printf` shows the first `lu` bytes of the region with
`%.*s`.  Results: `none` = undefined behaviour (read past the region),
`some none` = buffer accepted, `some (some shown)` = mismatch, `shown` being
the bytes the diagnostic prints. -/
def checkBuf (expected : List Nat) (ba : List Nat) (lu : Nat) :
    Option (Option (List Nat)) :=
  if lu ≠ expected.length then
    (readBytes ba lu).map some
  else
    match readBytes ba lu with
    | none => none
    | some bs =>
      if expected.take lu == bs then some none
      else some (some bs)

/-- Lines 65-81: validation of the already-dereferenced second buffer
(`buft1` is carried only for the debug output preceding this point). -/
def yvpCheck2 (mem : Mem) (buft1 buft2 : ydb_buffer_t) :
    Option (Int × List Msg × Mem) :=
  match checkBuf expectedbuf2 buft2.buf_addr buft2.len_used with
  | none => none
  | some (some shown2) =>
    some (1, dbg (debugBufMsgs buft1 ++ debugValueMsg buft1) ++
             dbg (debugBufMsgs buft2) ++
             [Msg.buffer2Wrong expectedbuf2 shown2], mem)
  | some none =>
    some (0, dbg (debugBufMsgs buft1 ++ debugValueMsg buft1) ++
             dbg (debugBufMsgs buft2 ++ debugValueMsg buft2), mem)

/-- Line 65: `buft2 = va_arg(var, ydb_buffer_t *)` and its dereference. -/
def yvpArg3 (mem : Mem) (buft1 : ydb_buffer_t) (var2 : List Slot) :
    Option (Int × List Msg × Mem) :=
  match var2 with
  | Slot.bufPtr p2 :: _ =>
    match derefBuf mem p2 with
    | none => none
    | some buft2 => yvpCheck2 mem buft1 buft2
  | _ => none

/-- Lines 48-64: debug output and validation of the first buffer, then on to
the third argument. -/
def yvpCheck1 (mem : Mem) (buft1 : ydb_buffer_t) (var2 : List Slot) :
    Option (Int × List Msg × Mem) :=
  match checkBuf expectedbuf1 buft1.buf_addr buft1.len_used with
  | none => none
  | some (some shown1) =>
    some (1, dbg (debugBufMsgs buft1) ++
             [Msg.buffer1Wrong expectedbuf1 shown1], mem)
  | some none => yvpArg3 mem buft1 var2

/-- Line 47: `buft1 = va_arg(var, ydb_buffer_t *)` and its dereference. -/
def yvpArg2 (mem : Mem) (var1 : List Slot) :
    Option (Int × List Msg × Mem) :=
  match var1 with
  | Slot.bufPtr p1 :: var2 =>
    match derefBuf mem p1 with
    | none => none
    | some buft1 => yvpCheck1 mem buft1 var2
  | _ => none

/-- `YdB_vArIaDiC_pLiSt_TeSt(int argcnt, ...)` of
src/YdB_vArIaDiC_pLiSt_TeSt.c: validates the argument count, then pulls an
`int` and two `ydb_buffer_t *` off the variadic list in order, validating
each against the expected values.  Returns `some (status, output, mem')`
on a normal return and `none` on undefined behaviour. -/
def YdB_vArIaDiC_pLiSt_TeSt (mem : Mem) (argcnt : Int) (var : List Slot) :
    Option (Int × List Msg × Mem) :=
  if argcnt ≠ expectedargs then
    some (1, [Msg.argCountWrong expectedargs argcnt], mem)
  else
    match var with
    | Slot.intArg num :: var1 =>
      if expectedval ≠ num then
        some (1, [Msg.firstParamWrong expectedval num], mem)
      else
        yvpArg2 mem var1
    | _ => none

/-- The memory of the nominal test scenario: buffer one holds "Buffer one"
(10 bytes used), buffer two holds "Buffer two" (10 bytes used); allocated
lengths are parameters since the routine never reads them. -/
def goodMem (a1 a2 : Nat) : Mem :=
  [⟨strBytes "Buffer one", a1, 10⟩, ⟨strBytes "Buffer two", a2, 10⟩]

/-- The variadic list of the nominal scenario: the int 42 then the two
buffer pointers. -/
def goodArgs : List Slot := [Slot.intArg 42, Slot.bufPtr 0, Slot.bufPtr 1]

/-- Claim C1: for every argument count different from the expected arity 3,
the routine returns failure code 1 after printing the count-mismatch
diagnostic, and does so for every variadic list and memory whatsoever — in
particular for poisoned lists — because no slot is read before the count
check passes. -/
theorem c1_count_mismatch_no_deref (mem : Mem) (argcnt : Int)
    (var : List Slot) (h : argcnt ≠ 3) :
    YdB_vArIaDiC_pLiSt_TeSt mem argcnt var =
      some (1, [Msg.argCountWrong 3 argcnt], mem) := by
  unfold YdB_vArIaDiC_pLiSt_TeSt
  rw [if_pos (show argcnt ≠ expectedargs from h)]
  rfl

/-- Witness for C1: argument count 2 with a poisoned one-slot list over empty
memory returns 1 with the count-mismatch diagnostic and does not crash. -/
theorem c1_witness :
    (2 : Int) ≠ 3 ∧
    YdB_vArIaDiC_pLiSt_TeSt [] 2 [Slot.bufPtr 99] =
      some (1, [Msg.argCountWrong 3 2], []) :=
  ⟨by decide, c1_count_mismatch_no_deref [] 2 [Slot.bufPtr 99] (by decide)⟩

/-- Claim C2: with argument count 3, the int 42, and the two buffers holding
"Buffer one" and "Buffer two" with used length 10, the routine returns 0
(for any allocated lengths, which it never reads). -/
theorem c2_success_scenario (a1 a2 : Nat) :
    YdB_vArIaDiC_pLiSt_TeSt (goodMem a1 a2) 3 goodArgs =
      some (0, [], goodMem a1 a2) := rfl

/-- Claim C4: with argument count 3 and the int slot 41 while both buffers
hold the expected contents, the routine returns 1 and the diagnostic names
expected value 42 and received value 41. -/
theorem c4_wrong_int (a1 a2 : Nat) :
    YdB_vArIaDiC_pLiSt_TeSt (goodMem a1 a2) 3
        [Slot.intArg 41, Slot.bufPtr 0, Slot.bufPtr 1] =
      some (1, [Msg.firstParamWrong 42 41], goodMem a1 a2) := rfl

/-- Claim C5: with argument count 3, int 42, and buffer one holding
"Buffer ONE" with used length 10 (same length, different bytes), the routine
returns 1 with the content-mismatch diagnostic for buffer one, showing the
expected and the received bytes. -/
theorem c5_wrong_buf1_content (a1 a2 : Nat) :
    YdB_vArIaDiC_pLiSt_TeSt
        [⟨strBytes "Buffer ONE", a1, 10⟩, ⟨strBytes "Buffer two", a2, 10⟩]
        3 goodArgs =
      some (1, [Msg.buffer1Wrong expectedbuf1 (strBytes "Buffer ONE")],
        [⟨strBytes "Buffer ONE", a1, 10⟩, ⟨strBytes "Buffer two", a2, 10⟩]) :=
  rfl

lemma expectedbuf2_length : expectedbuf2.length = 10 := rfl

/-- Claim C6: with argument count 3, int 42, buffer one correct, and buffer
two's used length 9 over backing "Buffer two", the routine returns 1 (first
conjunct, showing the 9 bytes the diagnostic prints).  The length check is
evaluated before the content comparison: for ANY backing region and used
length `n ≠ 10` with `n` readable bytes, the routine fails cleanly with the
same shape of diagnostic — in particular even when the region holds fewer
than 10 bytes, where a content comparison over the expected length would be
undefined behaviour (second conjunct). -/
theorem c6_short_buf2 :
    (∀ a1 a2 : Nat,
      YdB_vArIaDiC_pLiSt_TeSt
          [⟨strBytes "Buffer one", a1, 10⟩, ⟨strBytes "Buffer two", a2, 9⟩]
          3 goodArgs =
        some (1, [Msg.buffer2Wrong expectedbuf2 (strBytes "Buffer tw")],
          [⟨strBytes "Buffer one", a1, 10⟩, ⟨strBytes "Buffer two", a2, 9⟩])) ∧
    (∀ (bs : List Nat) (a1 a2 n : Nat), n ≠ 10 → n ≤ bs.length →
      YdB_vArIaDiC_pLiSt_TeSt
          [⟨strBytes "Buffer one", a1, 10⟩, ⟨bs, a2, n⟩] 3 goodArgs =
        some (1, [Msg.buffer2Wrong expectedbuf2 (bs.take n)],
          [⟨strBytes "Buffer one", a1, 10⟩, ⟨bs, a2, n⟩])) := by
  constructor
  · intro a1 a2
    rfl
  · intro bs a1 a2 n hn hle
    show YdB_vArIaDiC_pLiSt_TeSt _ _ _ = _
    unfold YdB_vArIaDiC_pLiSt_TeSt goodArgs yvpArg2 yvpCheck1 yvpArg3
      yvpCheck2
    simp only [derefBuf, List.get?]
    have h2 : checkBuf expectedbuf2 bs n = some (some (bs.take n)) := by
      unfold checkBuf
      rw [if_pos (by rw [expectedbuf2_length]; exact hn)]
      unfold readBytes
      rw [if_pos hle]
      rfl
    simp only [h2]
    rfl

/-- Witness for C6: buffer two's region holding only the 5 bytes of "short"
with used length 5 fails cleanly, showing those 5 bytes. -/
theorem c6_witness :
    (5 : Nat) ≠ 10 ∧ 5 ≤ (strBytes "short").length ∧
    YdB_vArIaDiC_pLiSt_TeSt
        [⟨strBytes "Buffer one", 10, 10⟩, ⟨strBytes "short", 5, 5⟩]
        3 goodArgs =
      some (1, [Msg.buffer2Wrong expectedbuf2 ((strBytes "short").take 5)],
        [⟨strBytes "Buffer one", 10, 10⟩, ⟨strBytes "short", 5, 5⟩]) :=
  ⟨by decide, by decide,
    c6_short_buf2.2 (strBytes "short") 10 5 5 (by decide) (by decide)⟩

/-- Whether a diagnostic is one of the FAIL lines (each of which carries both
the expected and the received value), as opposed to a debug line. -/
def Msg.isFailureDiag : Msg → Bool
  | .argCountWrong _ _ => true
  | .firstParamWrong _ _ => true
  | .buffer1Wrong _ _ => true
  | .buffer2Wrong _ _ => true
  | .debugBuf _ _ => false
  | .debugValue _ => false

/-- Shape of every normal return of the routine: the memory is unchanged, and
either status 0 with no output, or status 1 with exactly one failure
diagnostic. -/
lemma yvp_return_shape (mem : Mem) (argcnt : Int) (var : List Slot)
    (out : Int × List Msg × Mem)
    (h : YdB_vArIaDiC_pLiSt_TeSt mem argcnt var = some out) :
    out.2.2 = mem ∧
      ((out.1 = 0 ∧ out.2.1 = []) ∨
       (out.1 = 1 ∧ ∃ m, out.2.1 = [m] ∧ m.isFailureDiag = true)) := by
  unfold YdB_vArIaDiC_pLiSt_TeSt yvpArg2 yvpCheck1 yvpArg3 yvpCheck2 at h
  repeat' split at h
  all_goals first
    | (cases h; exact ⟨rfl, Or.inl ⟨rfl, rfl⟩⟩)
    | (cases h; exact ⟨rfl, Or.inr ⟨rfl, _, rfl, rfl⟩⟩)
    | exact absurd h (by simp)

/-- Claim C7: on every normal return that is not a success, the routine
returns 1 and prints exactly one diagnostic, a FAIL line carrying both the
expected and the received value; a detected error is surfaced only through
that returned status (every detection path of the routine ends in a normal
return — the `none` outcomes of the model are undefined behaviour, not
detected errors). -/
theorem c7_failure_reporting (mem : Mem) (argcnt : Int) (var : List Slot)
    (out : Int × List Msg × Mem)
    (h : YdB_vArIaDiC_pLiSt_TeSt mem argcnt var = some out)
    (hfail : out.1 ≠ 0) :
    out.1 = 1 ∧ ∃ m, out.2.1 = [m] ∧ m.isFailureDiag = true := by
  rcases yvp_return_shape mem argcnt var out h with ⟨-, h0 | h1⟩
  · exact absurd h0.1 hfail
  · exact h1

/-- Witness for C7: the count-mismatch input 2 returns a non-success, and the
theorem yields status 1 with the single failure diagnostic. -/
theorem c7_witness :
    YdB_vArIaDiC_pLiSt_TeSt [] 2 [] =
        some (1, [Msg.argCountWrong 3 2], []) ∧
    (1 : Int) ≠ 0 ∧
    ((1 : Int) = 1 ∧
      ∃ m, [Msg.argCountWrong 3 2] = [m] ∧ m.isFailureDiag = true) :=
  ⟨by decide, by decide,
    c7_failure_reporting [] 2 [] (1, [Msg.argCountWrong 3 2], [])
      (by decide) (by decide)⟩

/-- Claim C8: on every normal return, whether 0 or 1, the routine has written
nothing: every descriptor's region content, allocated length and used length
in memory are the same after the call as before it. -/
theorem c8_no_writes (mem : Mem) (argcnt : Int) (var : List Slot)
    (out : Int × List Msg × Mem)
    (h : YdB_vArIaDiC_pLiSt_TeSt mem argcnt var = some out) :
    out.2.2 = mem :=
  (yvp_return_shape mem argcnt var out h).1

/-- Witness for C8: the nominal success scenario returns the memory
unchanged. -/
theorem c8_witness :
    YdB_vArIaDiC_pLiSt_TeSt (goodMem 10 10) 3 goodArgs =
        some (0, [], goodMem 10 10) ∧
    (0, ([] : List Msg), goodMem 10 10).2.2 = goodMem 10 10 :=
  ⟨by decide,
    c8_no_writes (goodMem 10 10) 3 goodArgs (0, [], goodMem 10 10)
      (by decide)⟩

/-- Claim C10: every normal return of the routine carries status 0 or 1 and
nothing else, and a return with status 0 prints no output at all (the debug
flag is fixed to 0 and there is no success message). -/
theorem c10_result_codes (mem : Mem) (argcnt : Int) (var : List Slot)
    (out : Int × List Msg × Mem)
    (h : YdB_vArIaDiC_pLiSt_TeSt mem argcnt var = some out) :
    (out.1 = 0 ∨ out.1 = 1) ∧ (out.1 = 0 → out.2.1 = []) := by
  rcases yvp_return_shape mem argcnt var out h with ⟨-, ⟨h0, he⟩ | ⟨h1, -⟩⟩
  · exact ⟨Or.inl h0, fun _ => he⟩
  · exact ⟨Or.inr h1, fun h0 => by omega⟩

/-- Witness for C10: the nominal success scenario returns 0 with empty
output. -/
theorem c10_witness :
    YdB_vArIaDiC_pLiSt_TeSt (goodMem 10 10) 3 goodArgs =
        some (0, [], goodMem 10 10) ∧
    (((0 : Int) = 0 ∨ (0 : Int) = 1) ∧
      ((0 : Int) = 0 → ([] : List Msg) = [])) :=
  ⟨by decide,
    c10_result_codes (goodMem 10 10) 3 goodArgs (0, [], goodMem 10 10)
      (by decide)⟩

/-- Erase the allocated-length field of a descriptor, keeping the fields the
routine reads (region content and used length). -/
def scrubAlloc (b : ydb_buffer_t) : ydb_buffer_t :=
  ⟨b.buf_addr, 0, b.len_used⟩

/-- The observable outcome of a call: crash or (status, printed output),
forgetting the returned memory. -/
def obs : Option (Int × List Msg × Mem) → Option (Int × List Msg)
  | none => none
  | some (r, ms, _) => some (r, ms)

lemma dbg_nil (ms : List Msg) : dbg ms = [] := rfl

lemma scrubAlloc_fields {b₁ b₂ : ydb_buffer_t}
    (h : scrubAlloc b₁ = scrubAlloc b₂) :
    b₁.buf_addr = b₂.buf_addr ∧ b₁.len_used = b₂.len_used := by
  simpa [scrubAlloc] using h

lemma get?_map_scrub : ∀ (l : List ydb_buffer_t) (i : Nat),
    (l.map scrubAlloc).get? i = (l.get? i).map scrubAlloc := by
  intro l
  induction l with
  | nil => intro i; cases i <;> rfl
  | cons b bs ih =>
    intro i
    cases i with
    | zero => rfl
    | succ j => exact ih j

lemma derefBuf_scrub {mem₁ mem₂ : Mem}
    (h : mem₁.map scrubAlloc = mem₂.map scrubAlloc) (i : Nat) :
    (derefBuf mem₁ i).map scrubAlloc = (derefBuf mem₂ i).map scrubAlloc := by
  unfold derefBuf
  rw [← get?_map_scrub, ← get?_map_scrub, h]

lemma obs_yvpCheck2 {mem₁ mem₂ : Mem} {b₁ b₂ c₁ c₂ : ydb_buffer_t}
    (hc : scrubAlloc c₁ = scrubAlloc c₂) :
    obs (yvpCheck2 mem₁ b₁ c₁) = obs (yvpCheck2 mem₂ b₂ c₂) := by
  obtain ⟨ha, hu⟩ := scrubAlloc_fields hc
  unfold yvpCheck2
  rw [ha, hu]
  rcases checkBuf expectedbuf2 c₂.buf_addr c₂.len_used with - | (- | s) <;>
    rfl

lemma obs_yvpArg3 {mem₁ mem₂ : Mem} {b₁ b₂ : ydb_buffer_t}
    (h : mem₁.map scrubAlloc = mem₂.map scrubAlloc) (var2 : List Slot) :
    obs (yvpArg3 mem₁ b₁ var2) = obs (yvpArg3 mem₂ b₂ var2) := by
  unfold yvpArg3
  split
  · rename_i p2 tail
    have h2 := derefBuf_scrub h p2
    rcases e₁ : derefBuf mem₁ p2 with - | c₁ <;>
      rcases e₂ : derefBuf mem₂ p2 with - | c₂ <;>
      rw [e₁, e₂] at h2 <;>
      first
        | rfl
        | (simp only [Option.map] at h2
           exact obs_yvpCheck2 (Option.some.inj h2))
        | simp at h2
  · rfl

lemma obs_yvpCheck1 {mem₁ mem₂ : Mem} {b₁ b₂ : ydb_buffer_t}
    (h : mem₁.map scrubAlloc = mem₂.map scrubAlloc)
    (hb : scrubAlloc b₁ = scrubAlloc b₂) (var2 : List Slot) :
    obs (yvpCheck1 mem₁ b₁ var2) = obs (yvpCheck1 mem₂ b₂ var2) := by
  obtain ⟨ha, hu⟩ := scrubAlloc_fields hb
  unfold yvpCheck1
  rw [ha, hu]
  rcases checkBuf expectedbuf1 b₂.buf_addr b₂.len_used with - | (- | s)
  · rfl
  · exact obs_yvpArg3 h var2
  · rfl

lemma obs_yvpArg2 {mem₁ mem₂ : Mem}
    (h : mem₁.map scrubAlloc = mem₂.map scrubAlloc) (var1 : List Slot) :
    obs (yvpArg2 mem₁ var1) = obs (yvpArg2 mem₂ var1) := by
  unfold yvpArg2
  split
  · rename_i p1 var2
    have h1 := derefBuf_scrub h p1
    rcases e₁ : derefBuf mem₁ p1 with - | b₁ <;>
      rcases e₂ : derefBuf mem₂ p1 with - | b₂ <;>
      rw [e₁, e₂] at h1 <;>
      first
        | rfl
        | (simp only [Option.map] at h1
           exact obs_yvpCheck1 h (Option.some.inj h1) var2)
        | simp at h1
  · rfl

/-- Claim C9: the status and the printed output of the routine are
independent of the `len_alloc` fields of the descriptors — two memories
identical except for allocated lengths (equal after `scrubAlloc`) give the
same observable outcome on every call, because only `len_used` and the first
`len_used` bytes of each region are examined. -/
theorem c9_alloc_independent (mem₁ mem₂ : Mem) (argcnt : Int)
    (var : List Slot) (h : mem₁.map scrubAlloc = mem₂.map scrubAlloc) :
    obs (YdB_vArIaDiC_pLiSt_TeSt mem₁ argcnt var) =
      obs (YdB_vArIaDiC_pLiSt_TeSt mem₂ argcnt var) := by
  unfold YdB_vArIaDiC_pLiSt_TeSt
  split
  · rfl
  split
  · rename_i num var1
    split
    · rfl
    · exact obs_yvpArg2 h var1
  · rfl

/-- Witness for C9: the nominal scenario with allocated lengths (10, 10)
and with (64, 7) gives the same observable outcome. -/
theorem c9_witness :
    (goodMem 10 10).map scrubAlloc = (goodMem 64 7).map scrubAlloc ∧
    obs (YdB_vArIaDiC_pLiSt_TeSt (goodMem 10 10) 3 goodArgs) =
      obs (YdB_vArIaDiC_pLiSt_TeSt (goodMem 64 7) 3 goodArgs) :=
  ⟨by decide, c9_alloc_independent (goodMem 10 10) (goodMem 64 7) 3 goodArgs
    (by decide)⟩

/-- Modelled from the spec: §4.2 Parameter List Builder.  The Go-side
builder (`create`/`append`/`asRawHandle` in yottadb.go, backing the
`gparam_list` of src/v2/yottadb.h) is not part of src/, so it is modelled
from the spec's words: storage for at most `capacity` slots plus the slots
appended so far. -/
structure ParamList where
  capacity : Nat
  slots : List Slot
deriving DecidableEq, Repr

/-- Modelled from the spec: `create(capacity)` allocates storage for at most
`capacity` slots (allocation itself cannot fail in the model). -/
def ParamList.create (capacity : Nat) : ParamList := ⟨capacity, []⟩

/-- Modelled from the spec: `append(value)` appends a new slot, advancing the
count; fails with CapacityExceeded (`none`) if the count would exceed the
allocated capacity.  No reordering, no coercion. -/
def ParamList.append (p : ParamList) (s : Slot) : Option ParamList :=
  if p.slots.length < p.capacity then some ⟨p.capacity, p.slots ++ [s]⟩
  else none

/-- Modelled from the spec: `asRawHandle()` exposes the count and the
underlying slots for passing across the language boundary. -/
def ParamList.asRawHandle (p : ParamList) : Nat × List Slot :=
  (p.slots.length, p.slots)

/-- A sequence of `append` calls in order. -/
def appendList : ParamList → List Slot → Option ParamList
  | p, [] => some p
  | p, s :: rest =>
    match p.append s with
    | none => none
    | some p2 => appendList p2 rest

/-- The slot kinds of the out-of-band per-routine calling signature. -/
inductive Kind where
  | int
  | buf
deriving DecidableEq, Repr

def Slot.kind : Slot → Kind
  | .intArg _ => .int
  | .bufPtr _ => .buf

/-- A slot whose pointer (if any) can be dereferenced in `mem`. -/
def Slot.valid (mem : Mem) : Slot → Bool
  | .intArg _ => true
  | .bufPtr i => i < mem.length

/-- The value a consumer recovers from one slot: the integer bit-exact, or
the dereferenced buffer descriptor byte-exact. -/
def recoverValue (mem : Mem) : Slot → Int ⊕ ydb_buffer_t
  | .intArg n => Sum.inl n
  | .bufPtr i => Sum.inr ((derefBuf mem i).getD ⟨[], 0, 0⟩)

/-- Modelled from the spec: §4.3 steps 2-3 — a consumer expecting the kind
sequence `kinds` pulls arguments off the cursor strictly in order, each pull
interpreting the next slot according to the consumer's own expectation of
position/type; a type disagreement, a pull past the end, or a bad pointer
dereference is undefined behaviour (`none`). -/
def pullAll (mem : Mem) : List Kind → List Slot → Option (List (Int ⊕ ydb_buffer_t))
  | [], _ => some []
  | Kind.int :: ks, Slot.intArg n :: rest =>
    (pullAll mem ks rest).map (fun vs => Sum.inl n :: vs)
  | Kind.buf :: ks, Slot.bufPtr i :: rest =>
    match derefBuf mem i with
    | none => none
    | some b => (pullAll mem ks rest).map (fun vs => Sum.inr b :: vs)
  | _, _ => none

/-- Modelled from the spec: §4.3 step 1 — `invoke(argCount, parameterList)`
validates the count against the consumer's expected arity before touching
any slot (`some none` = CountMismatch, a clean failure), then pulls the
arguments in order. -/
def invoke (mem : Mem) (kinds : List Kind) (argcnt : Nat)
    (slots : List Slot) : Option (Option (List (Int ⊕ ydb_buffer_t))) :=
  if argcnt ≠ kinds.length then some none
  else (pullAll mem kinds slots).map some

lemma appendList_complete :
    ∀ (xs : List Slot) (p : ParamList),
      p.slots.length + xs.length ≤ p.capacity →
      appendList p xs = some ⟨p.capacity, p.slots ++ xs⟩ := by
  intro xs
  induction xs with
  | nil => intro p _; simp [appendList]
  | cons s rest ih =>
    intro p hlen
    simp only [List.length_cons] at hlen
    have hlt : p.slots.length < p.capacity := by omega
    show appendList p (s :: rest) = _
    unfold appendList ParamList.append
    rw [if_pos hlt]
    have := ih ⟨p.capacity, p.slots ++ [s]⟩ (by simp; omega)
    simpa using this

lemma pullAll_complete (mem : Mem) :
    ∀ xs : List Slot, (∀ s ∈ xs, s.valid mem = true) →
      pullAll mem (xs.map Slot.kind) xs = some (xs.map (recoverValue mem)) := by
  intro xs
  induction xs with
  | nil => intro _; rfl
  | cons s rest ih =>
    intro hval
    have hrest : ∀ t ∈ rest, t.valid mem = true :=
      fun t ht => hval t (List.mem_cons_of_mem s ht)
    cases s with
    | intArg n =>
      show pullAll mem (Kind.int :: rest.map Slot.kind) (Slot.intArg n :: rest) = _
      unfold pullAll
      rw [ih hrest]
      rfl
    | bufPtr i =>
      have hi : i < mem.length := by
        have := hval (Slot.bufPtr i) (List.mem_cons_self _ _)
        simpa [Slot.valid] using this
      obtain ⟨b, hb⟩ : ∃ b, derefBuf mem i = some b := by
        unfold derefBuf
        exact ⟨mem.get ⟨i, hi⟩, List.get?_eq_get hi⟩
      show pullAll mem (Kind.buf :: rest.map Slot.kind) (Slot.bufPtr i :: rest) = _
      unfold pullAll
      rw [hb, ih hrest]
      simp [recoverValue, hb]

/-- Claim C3: the round-trip property.  For every sequence of integer and
buffer-pointer slots (each pointer dereferenceable) appended in order to a
fresh Parameter List of sufficient capacity, every `append` succeeds, the
raw handle carries the count and the slots, and `invoke` with a consumer
expecting exactly that order passes the count check and recovers exactly
the appended values: integers bit-exact and dereferenced buffer descriptors
byte-exact, in the same order. -/
theorem c3_roundtrip (mem : Mem) (cap : Nat) (xs : List Slot)
    (hcap : xs.length ≤ cap) (hval : ∀ s ∈ xs, s.valid mem = true) :
    ∃ p : ParamList,
      appendList (ParamList.create cap) xs = some p ∧
      p.asRawHandle = (xs.length, xs) ∧
      invoke mem (xs.map Slot.kind) p.asRawHandle.1 p.asRawHandle.2 =
        some (some (xs.map (recoverValue mem))) := by
  refine ⟨⟨cap, xs⟩, ?_, ?_, ?_⟩
  · have := appendList_complete xs (ParamList.create cap)
      (by simpa [ParamList.create] using hcap)
    simpa [ParamList.create] using this
  · rfl
  · show invoke mem (xs.map Slot.kind) xs.length xs = _
    unfold invoke
    rw [if_neg (by simp)]
    rw [pullAll_complete mem xs hval]
    rfl

/-- Witness for C3: appending the int 7 and a pointer to the first
descriptor of a one-descriptor memory, then invoking with the matching kind
sequence, recovers exactly those values. -/
theorem c3_witness :
    ([Slot.intArg 7, Slot.bufPtr 0].length ≤ 3 ∧
      (∀ s ∈ [Slot.intArg 7, Slot.bufPtr 0],
        s.valid [⟨strBytes "ab", 2, 2⟩] = true)) ∧
    (∃ p : ParamList,
      appendList (ParamList.create 3) [Slot.intArg 7, Slot.bufPtr 0] =
        some p ∧
      p.asRawHandle = (2, [Slot.intArg 7, Slot.bufPtr 0]) ∧
      invoke [⟨strBytes "ab", 2, 2⟩]
          ([Slot.intArg 7, Slot.bufPtr 0].map Slot.kind)
          p.asRawHandle.1 p.asRawHandle.2 =
        some (some ([Slot.intArg 7, Slot.bufPtr 0].map
          (recoverValue [⟨strBytes "ab", 2, 2⟩])))) :=
  ⟨⟨by decide, by decide⟩,
    c3_roundtrip [⟨strBytes "ab", 2, 2⟩] 3 [Slot.intArg 7, Slot.bufPtr 0]
      (by decide) (by decide)⟩
